import Mathlib

/-!
Shallow embedding of `edgeone_ai.py` (OpenWebUI EdgeOne AI Gateway pipe).
Strings are modelled as `List Char`; Python exceptions surface as explicit
error constructors; the module-level rotation globals become a `RotState`
record threaded through the pure step function `getNextApiKey`.
-/

namespace EdgeOneAI

/-- Whitespace stripped by Python `str.strip()` (the ASCII whitespace set). -/
def isPySpace (c : Char) : Bool :=
  c == ' ' || c == '\t' || c == '\n' || c == '\r' || c == '\x0b' || c == '\x0c'

/-- Python `str.strip()`: drop leading and trailing whitespace. -/
def pyStrip (s : List Char) : List Char :=
  ((s.dropWhile isPySpace).reverse.dropWhile isPySpace).reverse

/-- Python `str.split(sep)` for a one-character separator: `"".split(",") = [""]`,
`"a,,b".split(",") = ["a","","b"]`. -/
def splitOn (sep : Char) : List Char → List (List Char)
  | [] => [[]]
  | c :: cs =>
    if c = sep then [] :: splitOn sep cs
    else
      match splitOn sep cs with
      | [] => [[c]]
      | t :: ts => (c :: t) :: ts

/-- Line 110: `[k.strip() for k in self.valves.api_keys.split(",") if k.strip()]`.
Split on ASCII commas only, strip each entry, drop empties. -/
def parseApiKeys (raw : List Char) : List (List Char) :=
  ((splitOn ',' raw).filter (fun k => !(pyStrip k).isEmpty)).map pyStrip

/-- Lines 95-101, `Pipe.pipes`: the available-models parser first normalizes
full-width commas, newlines and semicolons to ASCII commas, then splits. -/
def pipesModelList (availableModels : List Char) : List (List Char) :=
  if availableModels = [] then []
  else
    let raw := availableModels.map fun c =>
      if c = '，' then ',' else if c = '\n' then ',' else if c = ';' then ',' else c
    ((splitOn ',' raw).filter (fun m => !(pyStrip m).isEmpty)).map pyStrip

/-- The module-level rotation globals (lines 23-25): `CACHED_API_KEYS_STRING`,
`API_KEYS_LIST`, `CURRENT_KEY_INDEX`. -/
structure RotState where
  cachedKeys : List Char
  keysList : List (List Char)
  keyIndex : Nat
  deriving DecidableEq, Repr

/-- The globals' initial values: `""`, `[]`, `0`. -/
def rotInit : RotState := ⟨[], [], 0⟩

/-- Outcome of one `_get_next_api_key` call: `None` returned, an
`IndexError` raised by the list access, or a key string returned. -/
inductive RotResult where
  | noKey
  | indexError
  | key (k : List Char)
  deriving DecidableEq, Repr

/-- Lines 108-112: reload the key list and reset the cursor when the raw
string differs from the cached one; otherwise keep the state. -/
def reloadStep (apiKeys : List Char) (s : RotState) : RotState :=
  if apiKeys ≠ s.cachedKeys then ⟨apiKeys, parseApiKeys apiKeys, 0⟩ else s

/-- Lines 103-119, `Pipe._get_next_api_key`: one whole locked call —
reload-on-change, empty-list check, select at cursor, advance cursor mod length. -/
def getNextApiKey (apiKeys : List Char) (s : RotState) : RotResult × RotState :=
  let t := reloadStep apiKeys s
  if t.keysList = [] then (.noKey, t)
  else
    match t.keysList[t.keyIndex]? with
    | none => (.indexError, t)
    | some k => (.key k, ⟨t.cachedKeys, t.keysList, (t.keyIndex + 1) % t.keysList.length⟩)

/-- State after `n` sequential calls with a fixed raw credential string. -/
def rotStateAfter (raw : List Char) (s : RotState) : Nat → RotState
  | 0 => s
  | n + 1 => (getNextApiKey raw (rotStateAfter raw s n)).2

/-- Result of call number `n` (0-based) in a sequence of sequential calls. -/
def rotNth (raw : List Char) (s : RotState) (n : Nat) : RotResult :=
  (getNextApiKey raw (rotStateAfter raw s n)).1

/-- The three required configuration fields checked at line 123. -/
structure Valves where
  apiKeys : List Char
  oeKey : List Char
  gatewayName : List Char
  deriving DecidableEq, Repr

/-- Outcome of `Pipe.pipe` up to the adapter dispatch (lines 121-131). -/
inductive DispatchResult where
  | configIncomplete
  | noCredential
  | proceed (apiKey : List Char) (model : List Char)
  | raised
  deriving DecidableEq, Repr

/-- Line 124 error string. -/
def configIncompleteMsg : List Char := "错误：管道未配置。请填写 API Keys, OE-Key, Gateway Name。".toList

/-- Line 128 error string. -/
def noCredentialMsg : List Char := "错误：没有可用的 API Key。".toList

/-- The user-facing message carried by each early-return dispatch outcome. -/
def dispatchMessage : DispatchResult → Option (List Char)
  | .configIncomplete => some configIncompleteMsg
  | .noCredential => some noCredentialMsg
  | _ => none

/-- Everything after the first `'.'`; helper for the line 131 split. -/
def afterFirstDot : List Char → List Char
  | [] => []
  | c :: cs => if c = '.' then cs else afterFirstDot cs

/-- Line 131: `model_id.split(".", 1)[-1] if "." in model_id else model_id`.
`split(".", 1)[-1]` is the substring after the FIRST dot. -/
def deriveModel (modelId : List Char) : List Char :=
  if '.' ∈ modelId then afterFirstDot modelId else modelId

/-- Lines 121-131, `Pipe.pipe` before the adapter call: required-field check
(Python truthiness of the three strings), key rotation, model derivation. -/
def pipeDispatch (v : Valves) (s : RotState) (modelId : List Char) : DispatchResult × RotState :=
  if v.apiKeys = [] ∨ v.oeKey = [] ∨ v.gatewayName = [] then (.configIncomplete, s)
  else
    match getNextApiKey v.apiKeys s with
    | (.noKey, t) => (.noCredential, t)
    | (.indexError, t) => (.raised, t)
    | (.key k, t) =>
      if k = [] then (.noCredential, t) else (.proceed k (deriveModel modelId), t)

/-- One element of a list-typed message content: a dict read through
`item.get("type")` and `item.get("text", "")` (lines 166-168). -/
structure ContentItem where
  itemType : Option (List Char)
  itemText : Option (List Char)
  deriving DecidableEq, Repr

/-- A host message's `content` field: a plain string, a list of typed parts,
or any other value (which yields no parts). -/
inductive MsgContent where
  | str (s : List Char)
  | items (l : List ContentItem)
  | other
  deriving DecidableEq, Repr

/-- One host message: `msg.get("role", "")` and `msg.get("content", "")`. -/
structure ChatMsg where
  role : List Char
  content : MsgContent
  deriving DecidableEq, Repr

def sysRole : List Char := "system".toList

def textType : List Char := "text".toList

/-- Lines 163-168: the parts built for one non-system message — one text part
for string content, one per `"text"`-typed item for list content, none otherwise. -/
def contentParts : MsgContent → List (List Char)
  | .str s => [s]
  | .items l => l.filterMap fun it =>
      if it.itemType = some textType then some (it.itemText.getD []) else none
  | .other => []

/-- Line 160: `"model" if role == "assistant" else "user"`. -/
def mapRole (role : List Char) : List Char :=
  if role = "assistant".toList then "model".toList else "user".toList

/-- One entry of the native `contents` array. -/
structure GemTurn where
  role : List Char
  parts : List (List Char)
  deriving DecidableEq, Repr

/-- The normalization result: optional system instruction text and the turns. -/
structure GemNorm where
  sysInstr : Option (List Char)
  contents : List GemTurn
  deriving DecidableEq, Repr

/-- Lines 152-171: one iteration of the message loop in `_pipe_gemini`.
System messages are always skipped (non-empty string content overwrites the
instruction); other messages are appended only when they produce parts. -/
def normStep (st : GemNorm) (m : ChatMsg) : GemNorm :=
  if m.role = sysRole then
    match m.content with
    | .str s => if pyStrip s ≠ [] then { st with sysInstr := some s } else st
    | _ => st
  else
    let ps := contentParts m.content
    if ps = [] then st else { st with contents := st.contents ++ [⟨mapRole m.role, ps⟩] }

/-- The whole message loop of `_pipe_gemini` (lines 149-171). -/
def normGemini (msgs : List ChatMsg) : GemNorm :=
  msgs.foldl normStep ⟨none, []⟩

/-- Line 179 error string. -/
def noParsableMsg : List Char := "错误：无法解析对话内容。".toList

/-- Lines 178-179: `if not contents: return "错误：无法解析对话内容。"`. -/
def pipeGeminiParse (msgs : List ChatMsg) : Except (List Char) GemNorm :=
  let n := normGemini msgs
  if n.contents = [] then .error noParsableMsg else .ok n

/-- The `thinkingConfig` object written into `generationConfig`: either the
budget-based dict of lines 219-222 or the level-based dict of lines 225-228. -/
inductive ThinkCfg where
  | budget (includeThoughts : Bool) (thinkingBudget : Int)
  | level (thinkingLevel : List Char) (includeThoughts : Bool)
  deriving DecidableEq, Repr

/-- Lines 210-228: the experimental thinking-config injection, including the
line 221 `tb if tb != -1 else -1` pass-through. `none` when the toggle is off. -/
def thinkingConfig (enableExperimental : Bool) (thinkingBudget : Int)
    (thinkingLevel : List Char) : Option ThinkCfg :=
  if enableExperimental then
    if thinkingBudget ≠ 0 then
      some (.budget true (if thinkingBudget ≠ -1 then thinkingBudget else -1))
    else some (.level thinkingLevel true)
  else none

/-- One part of the response candidate's content, read through
`part.get("text", "")` and `part.get("thought", False)` (lines 247, 260). -/
structure RespPart where
  text : List Char
  thought : Bool
  deriving DecidableEq, Repr

def thinkOpen : List Char := "<think>".toList

def thinkClose : List Char := "</think>".toList

/-- Line 292 sentinel string. -/
def noValidRespMsg : List Char := "警告：未找到有效响应。".toList

/-- Lines 246-282: one iteration of the part-concatenation loop — skip empty
text, wrap thought-flagged text in think tags plus a newline, else append raw. -/
def appendPart (acc : List Char) (p : RespPart) : List Char :=
  if p.text = [] then acc
  else if p.thought then acc ++ thinkOpen ++ p.text ++ thinkClose ++ ['\n']
  else acc ++ p.text

/-- Lines 245-292, `_pipe_gemini` response path given the first candidate's
parts: concatenate, fall back to `parts[0]`'s text when empty, then
`final_text.strip() if final_text else "警告：未找到有效响应。"`. -/
def extractFinalText (parts : List RespPart) : List Char :=
  let ft := parts.foldl appendPart []
  let ft2 := if ft = [] then (match parts with | [] => [] | p :: _ => p.text) else ft
  if ft2 ≠ [] then pyStrip ft2 else noValidRespMsg

/-- A native response candidate that echoes back exactly the parts of a
normalized request, none of them thought-flagged. -/
def echoParts (n : GemNorm) : List RespPart :=
  ((n.contents.map GemTurn.parts).flatten).map fun t => ⟨t, false⟩

/-- Normalize host messages to the native format (lines 149-171) and run the
response-text extraction (lines 245-292) on a response echoing the same parts. -/
def geminiRoundTrip (msgs : List ChatMsg) : List Char :=
  extractFinalText (echoParts (normGemini msgs))

/-- JSON values as produced by `json.loads` (numbers restricted to integers;
every payload in this development is made of objects, arrays and strings). -/
inductive JValue where
  | null
  | bool (b : Bool)
  | num (n : Int)
  | str (s : List Char)
  | arr (xs : List JValue)
  | obj (fields : List (List Char × JValue))
  deriving Repr

/-- Python truthiness of a JSON value (`if text:` at line 354). -/
def jTruthy : JValue → Bool
  | .null => false
  | .bool b => b
  | .num n => n != 0
  | .str s => !s.isEmpty
  | .arr xs => !xs.isEmpty
  | .obj fs => !fs.isEmpty

/-- Python `dict.get(key, default)`; calling `.get` on a non-dict raises
(`AttributeError`), modelled as `.error`. -/
def dictGet (j : JValue) (k : List Char) (dflt : JValue) : Except Unit JValue :=
  match j with
  | .obj fs =>
    match fs.find? (fun p => p.1 = k) with
    | some p => .ok p.2
    | none => .ok dflt
  | _ => .error ()

/-- Python `seq[0]`: head of a list, first character of a string; anything
else (including an empty sequence, `IndexError`) raises. -/
def index0 : JValue → Except Unit JValue
  | .arr (x :: _) => .ok x
  | .str (c :: _) => .ok (.str [c])
  | _ => .error ()

def choicesStr : List Char := "choices".toList

def deltaStr : List Char := "delta".toList

def contentStr : List Char := "content".toList

/-- Line 353: `data.get("choices", [{}])[0].get("delta", {}).get("content", "")`. -/
def extractDelta (j : JValue) : Except Unit JValue := do
  let cs ← dictGet j choicesStr (.arr [.obj []])
  let c0 ← index0 cs
  let d ← dictGet c0 deltaStr (.obj [])
  dictGet d contentStr (.str [])

def dataMarker : List Char := "data: ".toList

def doneTok : List Char := "[DONE]".toList

/-- Lines 348-357: processing of one stream line. `.ok none` means the line
contributes nothing; `.ok (some t)` means `t` is yielded; `.error` models an
exception escaping the generator (only `JSONDecodeError` is caught). -/
def decodeLine (parse : List Char → Option JValue) (line : List Char) :
    Except Unit (Option JValue) :=
  if line.take 6 = dataMarker then
    let ds := line.drop 6
    if pyStrip ds ≠ [] ∧ pyStrip ds ≠ doneTok then
      match parse ds with
      | none => .ok none
      | some j =>
        match extractDelta j with
        | .error _ => .error ()
        | .ok t => .ok (if jTruthy t then some t else none)
    else .ok none
  else .ok none

/-- Lines 347-357, the whole `_stream` loop over the received lines: the
fragments yielded in order, paired with whether an uncaught exception aborted
the generator before the input was exhausted. -/
def decodeStream (parse : List Char → Option JValue) : List (List Char) → List JValue × Bool
  | [] => ([], false)
  | l :: ls =>
    match decodeLine parse l with
    | .error _ => ([], true)
    | .ok none => decodeStream parse ls
    | .ok (some t) =>
      let r := decodeStream parse ls
      (t :: r.1, r.2)

/-- An opening curly brace character. -/
def lb : Char := '\x7b'

/-- A closing curly brace character. -/
def rb : Char := '\x7d'

/-- The payload text of the first example stream line, i.e. the characters of
the JSON document holding one choice whose delta content is `"He"`. -/
def hePayload : List Char :=
  [lb] ++ "\"choices\":[".toList ++ [lb] ++ "\"delta\":".toList ++ [lb]
    ++ "\"content\":\"He\"".toList ++ [rb, rb, ']', rb]

/-- The payload text of the second example stream line, delta content `"llo"`. -/
def lloPayload : List Char :=
  [lb] ++ "\"choices\":[".toList ++ [lb] ++ "\"delta\":".toList ++ [lb]
    ++ "\"content\":\"llo\"".toList ++ [rb, rb, ']', rb]

/-- The JSON value of `hePayload`. -/
def heJson : JValue :=
  .obj [(choicesStr, .arr [.obj [(deltaStr, .obj [(contentStr, .str "He".toList)])]])]

/-- The JSON value of `lloPayload`. -/
def lloJson : JValue :=
  .obj [(choicesStr, .arr [.obj [(deltaStr, .obj [(contentStr, .str "llo".toList)])]])]

/-- Restriction of `json.loads` to the example payloads: the two valid frames
map to their JSON values; everything else used in the example (in particular
the text `not-json`) is invalid JSON and raises `JSONDecodeError` (`none`). -/
def exampleParse (s : List Char) : Option JValue :=
  if s = hePayload then some heJson
  else if s = lloPayload then some lloJson
  else none

/-- `getNextApiKey` never changes the cached string or the key list beyond
what the reload step does. -/
theorem getNext_keeps (raw : List Char) (s : RotState) :
    (getNextApiKey raw s).2.cachedKeys = (reloadStep raw s).cachedKeys ∧
    (getNextApiKey raw s).2.keysList = (reloadStep raw s).keysList := by
  simp only [getNextApiKey]
  split
  · exact ⟨rfl, rfl⟩
  · split <;> exact ⟨rfl, rfl⟩

/-- C2: the credential list is recomputed (split on commas, trimmed, empties
dropped) if and only if the raw string differs from the cached one, the cursor
is reset to 0 on every recomputation, and when the raw string matches the
cache both the list and the cached string are left unchanged by the call. -/
theorem c2_reload_iff (raw : List Char) (s : RotState) :
    (raw ≠ s.cachedKeys → reloadStep raw s = ⟨raw, parseApiKeys raw, 0⟩) ∧
    (raw = s.cachedKeys → reloadStep raw s = s) ∧
    ((getNextApiKey raw s).2.cachedKeys = if raw = s.cachedKeys then s.cachedKeys else raw) ∧
    ((getNextApiKey raw s).2.keysList =
      if raw = s.cachedKeys then s.keysList else parseApiKeys raw) := by
  refine ⟨fun h => ?_, fun h => ?_, ?_, ?_⟩
  · unfold reloadStep
    rw [if_pos h]
  · unfold reloadStep
    rw [if_neg (by simp [h])]
  · rw [(getNext_keeps raw s).1]
    unfold reloadStep
    by_cases h : raw = s.cachedKeys
    · rw [if_neg (by simp [h]), if_pos h]
    · rw [if_pos h, if_neg h]
  · rw [(getNext_keeps raw s).2]
    unfold reloadStep
    by_cases h : raw = s.cachedKeys
    · rw [if_neg (by simp [h]), if_pos h]
    · rw [if_pos h, if_neg h]

/-- Witness for C2 at a concrete reload. -/
theorem c2_reload_iff_witness :
    reloadStep "a".toList rotInit = ⟨"a".toList, parseApiKeys "a".toList, 0⟩ :=
  (c2_reload_iff "a".toList rotInit).1 (by decide)

/-- C4 counterexample: with an empty credential string but non-empty gateway
key and gateway name, `pipe` returns the ConfigurationIncomplete message, not
the NoCredentialAvailable message the claim predicts. -/
theorem c4_counterexample :
    (pipeDispatch ⟨[], "k".toList, "g".toList⟩ rotInit "m".toList).1
        = .configIncomplete ∧
    dispatchMessage (pipeDispatch ⟨[], "k".toList, "g".toList⟩ rotInit "m".toList).1
        ≠ some noCredentialMsg := by
  decide

/-- C4 amended: whenever the configured credential string is empty, `pipe`
returns the ConfigurationIncomplete error string regardless of the other two
fields, and no exception reaches the host. -/
theorem c4_empty_keys (v : Valves) (s : RotState) (mid : List Char)
    (h : v.apiKeys = []) :
    (pipeDispatch v s mid).1 = .configIncomplete ∧
    dispatchMessage (pipeDispatch v s mid).1 = some configIncompleteMsg ∧
    (pipeDispatch v s mid).1 ≠ .raised := by
  have h1 : (pipeDispatch v s mid).1 = .configIncomplete := by
    unfold pipeDispatch
    rw [if_pos (Or.inl h)]
  refine ⟨h1, ?_, ?_⟩
  · rw [h1]
    rfl
  · rw [h1]
    decide

/-- Witness for the amended C4. -/
theorem c4_empty_keys_witness :
    (pipeDispatch ⟨[], "k".toList, "g".toList⟩ rotInit "x".toList).1
      = .configIncomplete :=
  (c4_empty_keys ⟨[], "k".toList, "g".toList⟩ rotInit "x".toList rfl).1

/-- Everything after the first dot, on a list that has a dot after a
dot-free first segment. -/
theorem afterFirstDot_append (pre suf : List Char) (h : '.' ∉ pre) :
    afterFirstDot (pre ++ '.' :: suf) = suf := by
  induction pre with
  | nil => simp [afterFirstDot]
  | cons c cs ih =>
    rw [List.mem_cons, not_or] at h
    rw [List.cons_append]
    unfold afterFirstDot
    rw [if_neg (fun hc => h.1 hc.symm)]
    exact ih h.2

/-- C5 counterexample: for the namespaced id `a.b.c` the code keeps `b.c`
(the substring after the FIRST dot), not `c` as the claim states. -/
theorem c5_counterexample :
    deriveModel "a.b.c".toList = "b.c".toList ∧ "b.c".toList ≠ "c".toList := by
  decide

/-- C5 amended: if the model id contains the separator, `pipe` uses the
substring after the first occurrence; otherwise the id verbatim. -/
theorem c5_first_dot (pre suf mid : List Char) :
    ('.' ∉ pre → deriveModel (pre ++ '.' :: suf) = suf) ∧
    ('.' ∉ mid → deriveModel mid = mid) := by
  constructor
  · intro h
    unfold deriveModel
    rw [if_pos (List.mem_append.mpr (Or.inr (List.mem_cons_self _ _))),
      afterFirstDot_append pre suf h]
  · intro h
    unfold deriveModel
    rw [if_neg h]

/-- Witness for the amended C5. -/
theorem c5_first_dot_witness : deriveModel "a.b".toList = "b".toList :=
  (c5_first_dot ['a'] ['b'] ['m']).1 (by decide)

/-- C7: with the experimental toggle on, a non-zero budget (including `-1`,
passed through verbatim) yields the budget-based thinking config with
`includeThoughts = true` and no level-based config; a zero budget yields the
level-based config with `includeThoughts = true` and no budget-based config. -/
theorem c7_thinking_exclusive (tb : Int) (tl : List Char) :
    (tb ≠ 0 → thinkingConfig true tb tl = some (.budget true tb) ∧
      ∀ l i, thinkingConfig true tb tl ≠ some (.level l i)) ∧
    (tb = 0 → thinkingConfig true tb tl = some (.level tl true) ∧
      ∀ i b, thinkingConfig true tb tl ≠ some (.budget i b)) := by
  constructor
  · intro h
    have he : thinkingConfig true tb tl = some (.budget true tb) := by
      unfold thinkingConfig
      rw [if_pos rfl, if_pos h]
      have hv : (if tb ≠ -1 then tb else -1) = tb := by
        by_cases h2 : tb = -1
        · rw [if_neg (by simp [h2]), h2]
        · rw [if_pos h2]
      rw [hv]
    exact ⟨he, fun l i => by simp [he]⟩
  · intro h
    have he : thinkingConfig true tb tl = some (.level tl true) := by
      unfold thinkingConfig
      rw [if_pos rfl, if_neg (by simp [h])]
    exact ⟨he, fun i b => by simp [he]⟩

/-- Witness for C7 at the dynamic budget `-1` and at budget `0`. -/
theorem c7_thinking_exclusive_witness :
    thinkingConfig true (-1) "high".toList = some (.budget true (-1)) ∧
    thinkingConfig true 0 "high".toList = some (.level "high".toList true) :=
  ⟨((c7_thinking_exclusive (-1) "high".toList).1 (by decide)).1,
    ((c7_thinking_exclusive 0 "high".toList).2 rfl).1⟩

/-- Splitting a list that does not contain the separator yields the list whole. -/
theorem splitOn_not_mem (sep : Char) (l : List Char) (h : sep ∉ l) :
    splitOn sep l = [l] := by
  induction l with
  | nil => rfl
  | cons c cs ih =>
    rw [List.mem_cons, not_or] at h
    unfold splitOn
    rw [if_neg (fun hc => h.1 hc.symm), ih h.2]

/-- C10: the credential parser splits on ASCII commas only — a raw string
with no ASCII comma and non-blank content yields the single trimmed string,
separators like `;` kept verbatim — while the available-models parser
normalizes `;` to a comma and so splits `a;b` into two entries. -/
theorem c10_comma_only (raw : List Char) (h1 : ',' ∉ raw) (h2 : pyStrip raw ≠ []) :
    parseApiKeys raw = [pyStrip raw] ∧
    parseApiKeys "a;b".toList = ["a;b".toList] ∧
    pipesModelList "a;b".toList = ["a".toList, "b".toList] := by
  refine ⟨?_, by decide, by decide⟩
  unfold parseApiKeys
  rw [splitOn_not_mem ',' raw h1]
  have h3 : (pyStrip raw).isEmpty = false := by
    cases hp : pyStrip raw with
    | nil => exact absurd hp h2
    | cons a as => rfl
  simp [List.filter, h3]

/-- Witness for C10 on a semicolon-delimited raw string. -/
theorem c10_comma_only_witness :
    parseApiKeys " a;b ".toList = [pyStrip " a;b ".toList] :=
  (c10_comma_only " a;b ".toList (by decide) (by decide)).1

/-- A message whose list content has no text-typed item leaves the
normalization state untouched, whatever its role. -/
theorem normStep_of_no_parts (st : GemNorm) (role : List Char)
    (items : List ContentItem) (h : ∀ it ∈ items, it.itemType ≠ some textType) :
    normStep st ⟨role, .items items⟩ = st := by
  unfold normStep
  by_cases hr : role = sysRole
  · rw [if_pos hr]
  · rw [if_neg hr]
    have hp : contentParts (.items items) = [] := by
      unfold contentParts
      rw [List.filterMap_eq_nil_iff]
      intro it hit
      rw [if_neg (h it hit)]
    simp [hp]

/-- C6: a message whose content is a list of only non-text-typed parts
produces zero parts and is omitted from the normalized output entirely, and
an empty normalized turn list makes `_pipe_gemini` return the
NoParsableContent error instead of building a request. -/
theorem c6_nontext_dropped (items : List ContentItem)
    (h : ∀ it ∈ items, it.itemType ≠ some textType) :
    contentParts (.items items) = [] ∧
    (∀ pre post role,
      normGemini (pre ++ ⟨role, .items items⟩ :: post) = normGemini (pre ++ post)) ∧
    (∀ msgs, (normGemini msgs).contents = [] →
      pipeGeminiParse msgs = .error noParsableMsg) := by
  refine ⟨?_, ?_, ?_⟩
  · unfold contentParts
    rw [List.filterMap_eq_nil_iff]
    intro it hit
    rw [if_neg (h it hit)]
  · intro pre post role
    unfold normGemini
    rw [List.foldl_append, List.foldl_append, List.foldl_cons,
      normStep_of_no_parts _ _ _ h]
  · intro msgs hm
    unfold pipeGeminiParse
    rw [if_pos hm]

/-- Witness for C6 at a single image-typed part. -/
theorem c6_nontext_dropped_witness :
    contentParts (.items [⟨some "image_url".toList, some "u".toList⟩]) = [] :=
  (c6_nontext_dropped [⟨some "image_url".toList, some "u".toList⟩] (by decide)).1

/-- A line without the `data: ` marker contributes nothing. -/
theorem decodeLine_no_marker (parse : List Char → Option JValue) (l : List Char)
    (h : l.take 6 ≠ dataMarker) : decodeLine parse l = .ok none := by
  unfold decodeLine
  rw [if_neg h]

/-- Unfolding equation of `decodeStream` on a non-empty line list. -/
theorem decodeStream_cons (parse : List Char → Option JValue) (l : List Char)
    (ls : List (List Char)) :
    decodeStream parse (l :: ls) =
      match decodeLine parse l with
      | .error _ => ([], true)
      | .ok none => decodeStream parse ls
      | .ok (some t) => (t :: (decodeStream parse ls).1, (decodeStream parse ls).2) :=
  rfl

/-- A skipped line leaves the decoded stream unchanged. -/
theorem decodeStream_skip (parse : List Char → Option JValue) (l : List Char)
    (ls : List (List Char)) (h : decodeLine parse l = .ok none) :
    decodeStream parse (l :: ls) = decodeStream parse ls := by
  rw [decodeStream_cons, h]

/-- C8: the stream decoder ignores lines without the `data: ` marker, skips
blank payloads and the `[DONE]` terminator, silently skips payloads that fail
to parse as JSON without ending the stream, yields `choices[0].delta.content`
of a parsed frame exactly when that value is truthy, and on the example
stream (with an interleaved non-JSON line) yields exactly `He` then `llo`. -/
theorem c8_stream_decoder (parse : List Char → Option JValue) (l : List Char)
    (ls : List (List Char)) :
    (l.take 6 ≠ dataMarker → decodeStream parse (l :: ls) = decodeStream parse ls) ∧
    (l.take 6 = dataMarker → pyStrip (l.drop 6) = [] ∨ pyStrip (l.drop 6) = doneTok →
      decodeStream parse (l :: ls) = decodeStream parse ls) ∧
    (l.take 6 = dataMarker → pyStrip (l.drop 6) ≠ [] → pyStrip (l.drop 6) ≠ doneTok →
      parse (l.drop 6) = none → decodeStream parse (l :: ls) = decodeStream parse ls) ∧
    (∀ j t, l.take 6 = dataMarker → pyStrip (l.drop 6) ≠ [] →
      pyStrip (l.drop 6) ≠ doneTok → parse (l.drop 6) = some j →
      extractDelta j = .ok t →
      decodeStream parse (l :: ls) =
        if jTruthy t
        then (t :: (decodeStream parse ls).1, (decodeStream parse ls).2)
        else decodeStream parse ls) ∧
    decodeStream exampleParse
      [dataMarker ++ hePayload, "data: not-json".toList,
        dataMarker ++ lloPayload, dataMarker ++ doneTok] =
      ([.str "He".toList, .str "llo".toList], false) := by
  refine ⟨?_, ?_, ?_, ?_, by rfl⟩
  · intro h
    exact decodeStream_skip parse l ls (decodeLine_no_marker parse l h)
  · intro h1 h2
    refine decodeStream_skip parse l ls ?_
    unfold decodeLine
    rw [if_pos h1, if_neg ?_]
    intro hc
    rcases h2 with h2 | h2
    · exact hc.1 h2
    · exact hc.2 h2
  · intro h1 h2 h3 h4
    refine decodeStream_skip parse l ls ?_
    unfold decodeLine
    rw [if_pos h1, if_pos ⟨h2, h3⟩, h4]
  · intro j t h1 h2 h3 h4 h5
    have hl : decodeLine parse l = .ok (if jTruthy t then some t else none) := by
      unfold decodeLine
      rw [if_pos h1, if_pos ⟨h2, h3⟩, h4]
      dsimp only
      rw [h5]
    by_cases ht : jTruthy t
    · rw [if_pos ht]
      have hl2 : decodeLine parse l = .ok (some t) := by
        rw [hl, if_pos ht]
      rw [decodeStream_cons, hl2]
    · rw [if_neg ht]
      have hl2 : decodeLine parse l = .ok none := by
        rw [hl, if_neg ht]
      exact decodeStream_skip parse l ls hl2

/-- Witness for C8 at a line without the event-data marker. -/
theorem c8_stream_decoder_witness :
    decodeStream exampleParse ["event: x".toList] = decodeStream exampleParse [] :=
  (c8_stream_decoder exampleParse "event: x".toList []).1 (by decide)

/-- Normalizing a list of plain-string non-system messages appends one turn
per message, each with a single text part. -/
theorem foldl_normStep_strings (msgs : List (List Char × List Char))
    (h : ∀ p ∈ msgs, p.1 ≠ sysRole) (st : GemNorm) :
    (List.foldl normStep st (msgs.map fun p => ⟨p.1, .str p.2⟩)).contents
      = st.contents ++ msgs.map fun p => ⟨mapRole p.1, [p.2]⟩ := by
  induction msgs generalizing st with
  | nil => simp
  | cons q qs ih =>
    simp only [List.map_cons, List.foldl_cons]
    have hs : normStep st ⟨q.1, MsgContent.str q.2⟩ =
        { st with contents := st.contents ++ [⟨mapRole q.1, [q.2]⟩] } := by
      unfold normStep
      rw [if_neg (h q (List.mem_cons_self q qs))]
      simp [contentParts]
    rw [hs, ih (fun p hp => h p (List.mem_cons_of_mem q hp))]
    simp

/-- Flattening a list of singleton lists gives back the elements. -/
theorem flatten_singletons {α : Type} (xs : List α) :
    (xs.map fun x => [x]).flatten = xs := by
  induction xs with
  | nil => rfl
  | cons x l ih => simp [ih]

/-- The echoed response parts of a normalized plain-string message list are
exactly the message texts, none thought-flagged. -/
theorem echoParts_strings (msgs : List (List Char × List Char))
    (h : ∀ p ∈ msgs, p.1 ≠ sysRole) :
    echoParts (normGemini (msgs.map fun p => ⟨p.1, .str p.2⟩))
      = (msgs.map Prod.snd).map fun t => ⟨t, false⟩ := by
  unfold echoParts normGemini
  rw [foldl_normStep_strings msgs h ⟨none, []⟩]
  simp only [List.nil_append, List.map_map]
  have hm : (msgs.map (GemTurn.parts ∘ fun p => ⟨mapRole p.1, [p.2]⟩))
      = (msgs.map Prod.snd).map fun x => [x] := by
    rw [List.map_map]
    rfl
  rw [hm, flatten_singletons, List.map_map]

/-- Concatenating thought-free parts appends exactly the non-empty texts,
i.e. the flattening of all the texts. -/
theorem foldl_appendPart_nothought (ts : List (List Char)) (acc : List Char) :
    List.foldl appendPart acc (ts.map fun t => ⟨t, false⟩) = acc ++ ts.flatten := by
  induction ts generalizing acc with
  | nil => simp
  | cons t rest ih =>
    simp only [List.map_cons, List.foldl_cons, List.flatten_cons]
    have ha : appendPart acc ⟨t, false⟩ = acc ++ t := by
      unfold appendPart
      by_cases h : t = []
      · rw [if_pos h, h, List.append_nil]
      · rw [if_neg h]
        rfl
    rw [ha, ih, List.append_assoc]

/-- Response-text extraction on thought-free parts: the stripped
concatenation of the texts, or the sentinel when everything is empty. -/
theorem extractFinalText_nothought (ts : List (List Char)) :
    extractFinalText (ts.map fun t => ⟨t, false⟩) =
      if ts.flatten = [] then noValidRespMsg else pyStrip ts.flatten := by
  simp only [extractFinalText]
  rw [foldl_appendPart_nothought ts [], List.nil_append]
  by_cases hf : ts.flatten = []
  · rw [if_pos hf, if_pos hf]
    cases ts with
    | nil => simp
    | cons t rest =>
      have ht : t = [] := by
        rw [List.flatten_cons] at hf
        exact (List.append_eq_nil.mp hf).1
      simp [ht]
  · rw [if_neg hf, if_neg hf, if_pos hf]

/-- C9 counterexample: a plain-string message with trailing whitespace is not
reproduced exactly by the round trip — the extraction strips it. -/
theorem c9_counterexample :
    geminiRoundTrip [⟨"user".toList, .str "hi ".toList⟩] = "hi".toList ∧
    "hi".toList ≠ "hi ".toList := by
  decide

/-- C9 amended: for host messages with plain string content, the round trip
through native normalization and response-text extraction reproduces the
concatenated text stripped of leading and trailing whitespace — exact only
when the concatenation is non-empty and has no whitespace margins — and
yields the no-valid-response sentinel when the concatenation is empty. -/
theorem c9_strip_roundtrip (msgs : List (List Char × List Char))
    (h : ∀ p ∈ msgs, p.1 ≠ sysRole) :
    geminiRoundTrip (msgs.map fun p => ⟨p.1, .str p.2⟩) =
      if (msgs.map Prod.snd).flatten = [] then noValidRespMsg
      else pyStrip ((msgs.map Prod.snd).flatten) := by
  unfold geminiRoundTrip
  rw [echoParts_strings msgs h, extractFinalText_nothought]

/-- Witness for the amended C9. -/
theorem c9_strip_roundtrip_witness :
    geminiRoundTrip [⟨"user".toList, MsgContent.str "ok".toList⟩] = "ok".toList := by
  have h := c9_strip_roundtrip [("user".toList, "ok".toList)] (by decide)
  exact h.trans (by decide)

/-- One call from a consistent state with the list already cached: returns
the key at the cursor and advances the cursor modulo the list length. -/
theorem getNext_cached (raw : List Char) (L : List (List Char)) (i : Nat)
    (hi : i < L.length) :
    getNextApiKey raw ⟨raw, L, i⟩ = (.key (L.getD i []), ⟨raw, L, (i + 1) % L.length⟩) := by
  have hne : L ≠ [] := by
    intro hL
    rw [hL] at hi
    simp at hi
  have hrel : reloadStep raw ⟨raw, L, i⟩ = ⟨raw, L, i⟩ := by
    unfold reloadStep
    rw [if_neg (by simp)]
  simp only [getNextApiKey, hrel]
  rw [if_neg hne, List.getElem?_eq_getElem hi]
  dsimp only
  rw [List.getD_eq_getElem?_getD, List.getElem?_eq_getElem hi]
  rfl

/-- One call from a state whose cached string differs from the raw string:
reloads, returns the head of the freshly parsed list, sets the cursor to
`1 % K`. -/
theorem getNext_fresh (raw : List Char) (s : RotState) (hc : s.cachedKeys ≠ raw)
    (hne : parseApiKeys raw ≠ []) :
    getNextApiKey raw s =
      (.key ((parseApiKeys raw).getD 0 []),
        ⟨raw, parseApiKeys raw, 1 % (parseApiKeys raw).length⟩) := by
  have hK : 0 < (parseApiKeys raw).length := List.length_pos.mpr hne
  have hrel : reloadStep raw s = ⟨raw, parseApiKeys raw, 0⟩ := by
    unfold reloadStep
    rw [if_pos (Ne.symm hc)]
  simp only [getNextApiKey, hrel]
  rw [if_neg hne, List.getElem?_eq_getElem hK]
  dsimp only
  rw [List.getD_eq_getElem?_getD, List.getElem?_eq_getElem hK]
  rfl

/-- After `n + 1` sequential calls from a fresh state, the rotator holds the
parsed list, the raw string is cached, and the cursor is `(n + 1) mod K`. -/
theorem rotStateAfter_fresh (raw : List Char) (s : RotState)
    (hc : s.cachedKeys ≠ raw) (hne : parseApiKeys raw ≠ []) (n : Nat) :
    rotStateAfter raw s (n + 1)
      = ⟨raw, parseApiKeys raw, (n + 1) % (parseApiKeys raw).length⟩ := by
  have hK : 0 < (parseApiKeys raw).length := List.length_pos.mpr hne
  induction n with
  | zero =>
    show (getNextApiKey raw (rotStateAfter raw s 0)).2 = _
    rw [show rotStateAfter raw s 0 = s from rfl, getNext_fresh raw s hc hne]
  | succ m ih =>
    show (getNextApiKey raw (rotStateAfter raw s (m + 1))).2 = _
    rw [ih, getNext_cached raw _ _ (Nat.mod_lt _ hK)]
    simp only [Nat.mod_add_mod]

/-- The number of naturals below `N` congruent to `j` modulo `K`. -/
theorem count_mod_slots (K : Nat) (hK : 0 < K) (j : Nat) (hj : j < K) (N : Nat) :
    ((List.range N).filter (fun i => i % K == j)).length
      = N / K + if j < N % K then 1 else 0 := by
  induction N with
  | zero => simp
  | succ n ih =>
    have hstep : ((List.range (n + 1)).filter (fun i => i % K == j)).length
        = ((List.range n).filter (fun i => i % K == j)).length
          + (if n % K = j then 1 else 0) := by
      rw [List.range_succ, List.filter_append, List.length_append]
      by_cases hn : n % K = j
      · rw [if_pos hn]
        simp [List.filter_cons, hn]
      · rw [if_neg hn]
        simp [List.filter_cons, hn]
    rw [hstep, ih]
    have hqr : K * (n / K) + n % K = n := Nat.div_add_mod n K
    have hr : n % K < K := Nat.mod_lt n hK
    have hKmul : K * (n / K + 1) = K * (n / K) + K := by
      rw [Nat.mul_add, Nat.mul_one]
    by_cases hc : n % K + 1 < K
    · have hmod : (n + 1) % K = n % K + 1 := by
        rw [show n + 1 = K * (n / K) + (n % K + 1) by omega, Nat.mul_add_mod,
          Nat.mod_eq_of_lt hc]
      have hdiv : (n + 1) / K = n / K := by
        rw [show n + 1 = K * (n / K) + (n % K + 1) by omega, Nat.mul_add_div hK,
          Nat.div_eq_of_lt hc, Nat.add_zero]
      rw [hmod, hdiv]
      split_ifs <;> omega
    · have hmod : (n + 1) % K = 0 := by
        rw [show n + 1 = K * (n / K + 1) by omega, Nat.mul_mod_right]
      have hdiv : (n + 1) / K = n / K + 1 := by
        rw [show n + 1 = K * (n / K + 1) by omega, Nat.mul_div_cancel_left _ hK]
      rw [hmod, hdiv]
      split_ifs <;> omega

/-- The per-slot count is the floor or the ceiling of `N / K`. -/
theorem floor_or_ceil (K N j : Nat) (hK : 0 < K) :
    N / K + (if j < N % K then 1 else 0) = N / K ∨
    N / K + (if j < N % K then 1 else 0) = (N + K - 1) / K := by
  by_cases h : j < N % K
  · right
    rw [if_pos h]
    have hr : 0 < N % K := Nat.pos_of_ne_zero (by omega)
    have hqr : K * (N / K) + N % K = N := Nat.div_add_mod N K
    have hrK : N % K < K := Nat.mod_lt N hK
    have key : N + K - 1 = K * (N / K + 1) + (N % K - 1) := by
      rw [Nat.mul_add, Nat.mul_one]
      omega
    rw [key, Nat.mul_add_div hK,
      Nat.div_eq_of_lt (show N % K - 1 < K by omega), Nat.add_zero]
  · left
    rw [if_neg h, Nat.add_zero]

/-- C1: from a freshly configured non-empty credential list, sequential call
number `i` returns the credential at slot `i mod K` (always in range, never
an error), and over `N` calls each slot is used `⌊N/K⌋` or `⌈N/K⌉` times. -/
theorem c1_round_robin (raw : List Char) (s : RotState)
    (hc : s.cachedKeys ≠ raw) (hne : parseApiKeys raw ≠ []) :
    (∀ i, rotNth raw s i
      = .key ((parseApiKeys raw).getD (i % (parseApiKeys raw).length) [])) ∧
    (∀ N j, j < (parseApiKeys raw).length →
      ((List.range N).filter (fun i => i % (parseApiKeys raw).length == j)).length
          = N / (parseApiKeys raw).length ∨
      ((List.range N).filter (fun i => i % (parseApiKeys raw).length == j)).length
          = (N + (parseApiKeys raw).length - 1) / (parseApiKeys raw).length) := by
  have hK : 0 < (parseApiKeys raw).length := List.length_pos.mpr hne
  constructor
  · intro i
    cases i with
    | zero =>
      show (getNextApiKey raw (rotStateAfter raw s 0)).1 = _
      rw [show rotStateAfter raw s 0 = s from rfl, getNext_fresh raw s hc hne]
      rw [Nat.zero_mod]
    | succ n =>
      show (getNextApiKey raw (rotStateAfter raw s (n + 1))).1 = _
      rw [rotStateAfter_fresh raw s hc hne n,
        getNext_cached raw _ _ (Nat.mod_lt _ hK)]
  · intro N j hj
    rw [count_mod_slots _ hK j hj N]
    exact floor_or_ceil _ N j hK

/-- Witness for C1: third call on the two-key list `a,b` wraps back to `a`,
fourth returns `b`. -/
theorem c1_round_robin_witness :
    rotNth "a,b".toList rotInit 2 = .key "a".toList ∧
    rotNth "a,b".toList rotInit 3 = .key "b".toList := by
  have h := c1_round_robin "a,b".toList rotInit (by decide) (by decide)
  constructor
  · rw [h.1 2]
    decide
  · rw [h.1 3]
    decide

example :
    decodeStream exampleParse
      [dataMarker ++ hePayload, "data: not-json".toList,
        dataMarker ++ lloPayload, dataMarker ++ doneTok] =
      ([.str "He".toList, .str "llo".toList], false) := by rfl

example : parseApiKeys "a;b".toList = ["a;b".toList] := by decide

example : pipesModelList "a;b".toList = ["a".toList, "b".toList] := by decide

example : deriveModel "a.b.c".toList = "b.c".toList := by decide

example : geminiRoundTrip [⟨"user".toList, .str "hi ".toList⟩] = "hi".toList := by decide

example : (pipeDispatch ⟨[], "k".toList, "g".toList⟩ rotInit "m".toList).1
    = .configIncomplete := by decide

example : rotNth "a,b".toList rotInit 0 = .key "a".toList := by decide

example : rotNth "a,b".toList rotInit 2 = .key "a".toList := by decide

example : rotNth "a,b".toList rotInit 3 = .key "b".toList := by decide

end EdgeOneAI
